import Mathlib

/-!
# Verification of the tiny job-control shell (src/shell.c)

Shallow embedding of `src/shell.c` (tsh). Machine integers that matter here
(pids, signal numbers, counts) are modelled as `Nat`; a pid value `0` encodes
the C sentinel "no job tracked" used by `g_runningPid` / `g_suspendedPid`.
Side effects (printf, kill, exit, fork, sigsuspend) are reified as an explicit
`Effect` list returned alongside the new state.
-/

/-- `#define MAXLINE 1024` (shell.c line 41). -/
def MAXLINE : Nat := 1024

/-- `#define MAXARGS 128` (shell.c line 43). -/
def MAXARGS : Nat := 128

/-- Signal number of SIGINT on the target platform. -/
def SIGINT : Nat := 2

/-- Signal number of SIGCONT on the target platform. -/
def SIGCONT : Nat := 18

/-- Signal number of SIGTSTP on the target platform. -/
def SIGTSTP : Nat := 20

/-- The scanning position of `parseline`'s loop (shell.c lines 155-188):
`start` is "at a token boundary, before the quote check" (the code just after
the space-skipping loops at lines 155-156 / 176-177), `plain` is "inside an
unquoted token, searching `strchr (buf, ' ')`", `quote` is "inside a quoted
token, searching `strchr (buf, '\'')`". -/
inductive TokMode | start | plain | quote
deriving DecidableEq, Repr

/-- One-character-at-a-time rendering of `parseline`'s token loop
(shell.c lines 155-188). `acc` holds the characters of the token being built
(the code builds tokens in place by planting `'\0'` at the delimiter).
A token whose delimiter is never found (`strchr` returns NULL: end of buffer
in `plain` mode, or an unclosed quote in `quote` mode) is discarded, exactly
as the C loop exits without storing it. -/
def tokAux : TokMode → List Char → List Char → List (List Char)
  | _, _, [] => []
  | TokMode.start, acc, c :: rest =>
      if c = ' ' then tokAux TokMode.start acc rest
      else if c = '\'' then tokAux TokMode.quote [] rest
      else tokAux TokMode.plain [c] rest
  | TokMode.plain, acc, c :: rest =>
      if c = ' ' then acc :: tokAux TokMode.start [] rest
      else tokAux TokMode.plain (acc ++ [c]) rest
  | TokMode.quote, acc, c :: rest =>
      if c = '\'' then acc :: tokAux TokMode.start [] rest
      else tokAux TokMode.quote (acc ++ [c]) rest

/-- The argv-building part of `parseline` (shell.c lines 155-189). -/
def tokenize (cs : List Char) : List (List Char) :=
  tokAux TokMode.start [] cs

/-- `buf[strlen (buf) - 1] = ' '` (shell.c line 154): replace the trailing
newline of the command line with a space. -/
def initSpace (cs : List Char) : List Char := cs.dropLast ++ [' ']

/-- `parseline` (shell.c lines 144-200): tokenize the line; on zero tokens
return background = true (`return 1`, line 192); otherwise, if the FIRST
character of the last token is `'&'` (`*argv[argc - 1] == '&'`, line 195),
drop that token and return background = true, else background = false. -/
def parseline (cmd : List Char) : List (List Char) × Bool :=
  let toks := tokenize (initSpace cmd)
  match toks.getLast? with
  | none => ([], true)
  | some t => if t.head? = some '&' then (toks.dropLast, true) else (toks, false)

/-- The two global tracking slots (shell.c lines 61-63):
`running` is `g_runningPid` (the spec's `foregroundGroup`),
`suspended` is `g_suspendedPid` (the spec's `suspendedGroup`);
value `0` means "empty slot". -/
structure ShellState where
  running : Nat
  suspended : Nat
deriving DecidableEq, Repr

/-- Reified side effects of the shell routines. -/
inductive Effect
  | printStopped (pid sig : Nat)
  | printTerminated (pid sig : Nat)
  | printBgJob (pid : Nat)
  | sendSignal (pgid sig : Nat)
  | exitShell (code : Nat)
  | forkChild
  | waitForeground
deriving DecidableEq, Repr

/-- `makefg` (shell.c lines 400-406): send SIGCONT to the suspended group if
one exists, then unconditionally swap `g_runningPid` and `g_suspendedPid`. -/
def makefg (s : ShellState) : ShellState × List Effect :=
  (⟨s.suspended, s.running⟩,
    if s.suspended ≠ 0 then [Effect.sendSignal s.suspended SIGCONT] else [])

/-- `sigtstp_handler` (shell.c lines 303-310): no-op without a foreground job;
otherwise print the stop notice, relay SIGTSTP to the foreground group, and
call `makefg`. -/
def sigtstp_handler (s : ShellState) : ShellState × List Effect :=
  if s.running = 0 then (s, [])
  else
    ((makefg s).1,
      Effect.printStopped s.running SIGTSTP ::
        Effect.sendSignal s.running SIGTSTP :: (makefg s).2)

/-- `sigint_handler` (shell.c lines 291-296): relay SIGINT to the foreground
group if one is tracked, else no-op. -/
def sigint_handler (s : ShellState) : ShellState × List Effect :=
  if s.running = 0 then (s, []) else (s, [Effect.sendSignal s.running SIGINT])

/-- Exit status of one reaped child, as inspected via `WIFSIGNALED` /
`WTERMSIG` in `sigchld_handler`. -/
inductive ChildStatus
  | exited (code : Nat)
  | signaled (sig : Nat)
deriving DecidableEq, Repr

/-- Body of one iteration of `sigchld_handler`'s reap loop
(shell.c lines 278-282): if the reaped pid is the tracked foreground pid,
print the termination notice when it died of SIGINT, and clear
`g_runningPid`. -/
def reapOne (s : ShellState) (pid : Nat) (st : ChildStatus) :
    ShellState × List Effect :=
  if s.running = pid then
    ({ s with running := 0 },
      match st with
      | ChildStatus.signaled sig =>
          if sig = SIGINT then [Effect.printTerminated pid SIGINT] else []
      | ChildStatus.exited _ => [])
  else (s, [])

/-- `sigchld_handler` (shell.c lines 271-284): the `waitpid (-1, _, WNOHANG)`
loop, fed the list of children the kernel has made collectable (the empty
list models `waitpid` immediately returning 0 or -1). -/
def sigchld_handler : ShellState → List (Nat × ChildStatus) →
    ShellState × List Effect
  | s, [] => (s, [])
  | s, (pid, st) :: rest =>
      let r := reapOne s pid st
      let k := sigchld_handler r.1 rest
      (k.1, r.2 ++ k.2)

/-- `builtin_cmd` (shell.c lines 382-393), applied to `arg[0]`: `quit` exits
with status 0, `fg` runs `makefg` then `waitfg` and reports handled, anything
else is not a built-in. The `Bool` is the C return value (with `exit (0)`
modelled as a handled command whose effect list is `exitShell 0`). -/
def builtin_cmd (s : ShellState) (a0 : List Char) :
    Bool × ShellState × List Effect :=
  if a0 = "quit".toList then (true, s, [Effect.exitShell 0])
  else if a0 = "fg".toList then
    (true, (makefg s).1, (makefg s).2 ++ [Effect.waitForeground])
  else (false, s, [])

/-- Parent-side decision structure of `eval` (shell.c lines 207-257):
parse; on zero tokens return; dispatch built-ins; otherwise fork (the pid the
fork returns is the parameter `childPid`), record it in `g_runningPid`, and
either print the background notice and clear the slot (background) or wait
for the foreground job. The signal-mask discipline around the fork is
modelled separately by `evalTrace` below. -/
def evalStep (s : ShellState) (childPid : Nat) (cmd : List Char) :
    ShellState × List Effect :=
  let p := parseline cmd
  match p.1 with
  | [] => (s, [])
  | a0 :: _ =>
      let b := builtin_cmd s a0
      if b.1 then (b.2.1, b.2.2)
      else if p.2 then
        ({ s with running := 0 },
          [Effect.forkChild, Effect.printBgJob childPid, Effect.waitForeground])
      else
        ({ s with running := childPid },
          [Effect.forkChild, Effect.waitForeground])

/-- The three operations the spec's exclusivity property ranges over, applied
to a single tracked job with process-group id `p`: a terminal stop
(`sigtstp_handler`), a resume (`builtin_cmd` on `fg`, whose state change is
`makefg`, shell.c lines 387-391), and a termination reaped by
`sigchld_handler`. -/
inductive JobOp | stop | resume | terminate
deriving DecidableEq, Repr

/-- State change of one job operation on the tracked job `p`. -/
def applyOp (p : Nat) (s : ShellState) : JobOp → ShellState
  | JobOp.stop => (sigtstp_handler s).1
  | JobOp.resume => (makefg s).1
  | JobOp.terminate => (sigchld_handler s [(p, ChildStatus.signaled SIGINT)]).1

/-- Run a sequence of job operations from a start state. -/
def runOps (p : Nat) (s : ShellState) (ops : List JobOp) : ShellState :=
  ops.foldl (applyOp p) s

/-- "A single tracked job with pgid `p`": each slot holds `p` or is empty,
and the two slots do not both hold `p`. -/
def singleJob (p : Nat) (s : ShellState) : Prop :=
  (s.running = 0 ∨ s.running = p) ∧ (s.suspended = 0 ∨ s.suspended = p) ∧
    ¬(s.running = p ∧ s.suspended = p)

/-- Events of the parent-side control path of `eval` (shell.c lines 223-256)
and `waitfg` (lines 370-375), in program order: `blockMask` is the
`sigprocmask (SIG_BLOCK, {SIGCHLD, SIGINT, SIGTSTP})` at line 229, `forkEv`
the `fork ()` at line 231, `recordPid` the store `g_runningPid = pid` at
line 248, `printBg` / `clearPid` lines 251-252, `suspendEv` one
`sigsuspend (&prev)` of `waitfg`'s loop with the empty mask (atomically
unblocks everything for the duration of the wait, restoring the blocked mask
on return), `restoreMask` the `sigprocmask (SIG_SETMASK, &prev, NULL)` at
line 256. -/
inductive EvEvent
  | blockMask
  | forkEv
  | recordPid
  | printBg
  | clearPid
  | suspendEv
  | restoreMask
deriving DecidableEq, Repr

/-- The events of `eval` strictly before the final mask restore: block, fork,
record the pid, the two background-only steps, then `n` iterations of
`waitfg`'s `sigsuspend` loop. -/
def evalTraceFront (bg : Bool) (n : Nat) : List EvEvent :=
  [EvEvent.blockMask, EvEvent.forkEv, EvEvent.recordPid] ++
    (if bg then [EvEvent.printBg, EvEvent.clearPid] else []) ++
    List.replicate n EvEvent.suspendEv

/-- Full parent-side event trace of one `eval` call that forked. -/
def evalTrace (bg : Bool) (n : Nat) : List EvEvent :=
  evalTraceFront bg n ++ [EvEvent.restoreMask]

/-- Whether the three relayed signals are in the blocked mask after one
event: `blockMask` blocks them, `restoreMask` restores the (unblocked)
pre-fork mask, everything else leaves the persistent mask unchanged
(`sigsuspend` reinstates the blocked mask when it returns). -/
def maskStep (m : Bool) (e : EvEvent) : Bool :=
  match e with
  | EvEvent.blockMask => true
  | EvEvent.restoreMask => false
  | _ => m

/-- Whether the three relayed signals are blocked just before event `i` of
the trace (initially they are unblocked). -/
def blockedBefore (t : List EvEvent) (i : Nat) : Bool :=
  (t.take i).foldl maskStep false

/-- A relayed handler can take a step at position `i` only if the signals are
unblocked there, or `i` is a `sigsuspend` (which atomically unblocks them for
the duration of the wait). -/
def deliverable (t : List EvEvent) (i : Nat) : Prop :=
  t[i]? = some EvEvent.suspendEv ∨ blockedBefore t i = false

/-! ## Helper lemmas -/

theorem tokAux_start_all_spaces (m : Nat) :
    tokAux TokMode.start [] (List.replicate m ' ') = [] := by
  induction m with
  | zero => rfl
  | succ k ih => simpa [List.replicate_succ, tokAux] using ih

/-- A blank line (only spaces before the newline) parses to zero tokens and
background flag `true` (`return 1` at shell.c line 192). -/
theorem parseline_blank (n : Nat) :
    parseline (List.replicate n ' ' ++ ['\n']) = ([], true) := by
  have h1 : initSpace (List.replicate n ' ' ++ ['\n']) =
      List.replicate (n + 1) ' ' := by
    rw [initSpace, List.dropLast_concat, ← List.replicate_succ']
  simp [parseline, h1, tokenize, tokAux_start_all_spaces]

/-- State component of `sigtstp_handler`. -/
theorem sigtstp_state (s : ShellState) :
    (sigtstp_handler s).1 =
      if s.running = 0 then s else ⟨s.suspended, s.running⟩ := by
  unfold sigtstp_handler makefg
  split <;> rfl

/-- State component of reaping exactly the tracked job. -/
theorem sigchld_single_state (s : ShellState) (p : Nat) (st : ChildStatus) :
    (sigchld_handler s [(p, st)]).1 =
      if s.running = p then { s with running := 0 } else s := by
  unfold sigchld_handler reapOne
  split <;> rfl

theorem applyOp_stop (p a b : Nat) :
    applyOp p ⟨a, b⟩ JobOp.stop = if a = 0 then ⟨a, b⟩ else ⟨b, a⟩ := by
  show (sigtstp_handler ⟨a, b⟩).1 = _
  unfold sigtstp_handler makefg
  split <;> rfl

theorem applyOp_resume (p a b : Nat) :
    applyOp p ⟨a, b⟩ JobOp.resume = ⟨b, a⟩ := rfl

theorem applyOp_terminate (p a b : Nat) :
    applyOp p ⟨a, b⟩ JobOp.terminate = if a = p then ⟨0, b⟩ else ⟨a, b⟩ := by
  show (sigchld_handler ⟨a, b⟩ [(p, ChildStatus.signaled SIGINT)]).1 = _
  unfold sigchld_handler reapOne
  split <;> rfl

theorem singleJob_mk (p a b : Nat) :
    singleJob p ⟨a, b⟩ ↔
      (a = 0 ∨ a = p) ∧ (b = 0 ∨ b = p) ∧ ¬(a = p ∧ b = p) :=
  Iff.rfl

theorem applyOp_preserves_singleJob (p : Nat) (s : ShellState) (op : JobOp)
    (h : singleJob p s) : singleJob p (applyOp p s op) := by
  obtain ⟨a, b⟩ := s
  rw [singleJob_mk] at h
  cases op with
  | stop =>
      rw [applyOp_stop]
      split <;> rw [singleJob_mk] <;> omega
  | resume =>
      rw [applyOp_resume, singleJob_mk]
      omega
  | terminate =>
      rw [applyOp_terminate]
      split <;> rw [singleJob_mk] <;> omega

theorem runOps_preserves_singleJob (p : Nat) (ops : List JobOp) :
    ∀ s : ShellState, singleJob p s → singleJob p (runOps p s ops) := by
  induction ops with
  | nil => intro s h; exact h
  | cons op rest ih =>
      intro s h
      exact ih (applyOp p s op) (applyOp_preserves_singleJob p s op h)

/-! ## Claims -/

/-- C1: starting from any state that tracks a single job with nonzero
process-group id `p` in at most one of the two slots, after any sequence of
stop (`sigtstp_handler`), resume (`fg` via `makefg`), and terminate
(`sigchld_handler` reaping) operations, `g_runningPid` and `g_suspendedPid`
are never simultaneously non-empty with the same process-group id. -/
theorem foreground_suspended_exclusive (p : Nat) (s0 : ShellState)
    (ops : List JobOp) (hp : p ≠ 0) (h0 : singleJob p s0) :
    ¬((runOps p s0 ops).running = (runOps p s0 ops).suspended ∧
      (runOps p s0 ops).running ≠ 0) := by
  have h := runOps_preserves_singleJob p ops s0 h0
  simp only [singleJob] at h
  omega

theorem foreground_suspended_exclusive_witness :
    ¬((runOps 3 ⟨3, 0⟩ [JobOp.stop, JobOp.resume, JobOp.terminate]).running =
        (runOps 3 ⟨3, 0⟩ [JobOp.stop, JobOp.resume, JobOp.terminate]).suspended ∧
      (runOps 3 ⟨3, 0⟩ [JobOp.stop, JobOp.resume, JobOp.terminate]).running ≠ 0) :=
  foreground_suspended_exclusive 3 ⟨3, 0⟩
    [JobOp.stop, JobOp.resume, JobOp.terminate] (by decide)
    ⟨Or.inr rfl, Or.inl rfl, fun hc => absurd hc.2 (by decide)⟩

/-- C3 counterexample: on the line `a &&`, the raw token sequence ends in
`&&`, which is not the one-character token `&`; yet `parseline` (which tests
only the first character, shell.c line 195) still removes it and reports a
background job. -/
theorem parseline_amp_exact_cex :
    tokenize (initSpace ['a', ' ', '&', '&', '\n']) = [['a'], ['&', '&']] ∧
    (['&', '&'] : List Char) ≠ ['&'] ∧
    parseline ['a', ' ', '&', '&', '\n'] = ([['a']], true) := by
  decide

/-- C3 (amended): `parseline` sets the background flag and removes the last
token if and only if the last token's FIRST character is `&` (so any token
beginning with `&`, such as `&&`, also triggers removal); otherwise the flag
is false and no token is removed. -/
theorem parseline_amp_spec (cmd t : List Char)
    (h : (tokenize (initSpace cmd)).getLast? = some t) :
    (t.head? = some '&' →
      parseline cmd = ((tokenize (initSpace cmd)).dropLast, true)) ∧
    (t.head? ≠ some '&' →
      parseline cmd = (tokenize (initSpace cmd), false)) := by
  constructor <;> intro hh <;> simp [parseline, h, hh]

theorem parseline_amp_spec_witness :
    parseline ['a', ' ', '&', '&', '\n'] = ([['a']], true) :=
  ((parseline_amp_spec ['a', ' ', '&', '&', '\n'] ['&', '&'] (by decide)).1
    (by decide)).trans (by decide)

/-- A command line of 200 single-letter tokens: 401 characters, well under
`MAXLINE`, yet far more tokens than the `argv` array of `eval` can hold. -/
def overflowLine : List Char := (List.replicate 200 ['a', ' ']).flatten ++ ['\n']

set_option maxRecDepth 40000 in
/-- C4: the token count of `parseline` is NOT bounded by `MAXARGS`: a legal
input line (length below `MAXLINE`) produces 200 tokens, so the C code writes
token pointers `argv[128..200]` past the end of the 128-slot array. -/
theorem parseline_exceeds_maxargs :
    overflowLine.length ≤ MAXLINE ∧
    MAXARGS < (parseline overflowLine).1.length := by
  decide

set_option maxRecDepth 4096 in
/-- C5 counterexample: `exit` is not recognized by `builtin_cmd`
(shell.c lines 382-393 test only `quit` and `fg`): the dispatcher reports
"not a built-in" and emits no exit effect at all. -/
theorem builtin_exit_cex :
    builtin_cmd ⟨0, 0⟩ "exit".toList = (false, ⟨0, 0⟩, []) ∧
    Effect.exitShell 0 ∉ (builtin_cmd ⟨0, 0⟩ "exit".toList).2.2 := by
  decide

set_option maxRecDepth 4096 in
/-- C5 (amended): only `quit` terminates the shell immediately with status 0
and with no child-cleanup effects; `exit` is not a built-in and falls through
to the launcher. -/
theorem builtin_quit_not_exit (s : ShellState) :
    builtin_cmd s "quit".toList = (true, s, [Effect.exitShell 0]) ∧
    builtin_cmd s "exit".toList = (false, s, []) :=
  ⟨rfl, rfl⟩

/-- C7: running `sigchld_handler` when `waitpid` has nothing collectable
(empty reap list) leaves both tracking variables unchanged and emits no
output. -/
theorem sigchld_idle_noop (s : ShellState) :
    sigchld_handler s [] = (s, []) := rfl

/-- C8: an empty or blank (spaces-only, the only whitespace the tokenizer
treats as blank) input line yields zero tokens, and `eval` treats it as a
no-op: no state change and no effects (no fork, no output). -/
theorem blank_line_noop (s : ShellState) (childPid n : Nat) :
    (parseline (List.replicate n ' ' ++ ['\n'])).1 = [] ∧
    evalStep s childPid (List.replicate n ' ' ++ ['\n']) = (s, []) := by
  have h := parseline_blank n
  exact ⟨by rw [h], by simp [evalStep, h]⟩

/-- C9 counterexample: with job 7 in the foreground and job 5 suspended, a
terminal stop does NOT drop pid 5 from tracking: `makefg`'s swap moves it
into the foreground slot. -/
theorem sigtstp_second_stop_cex :
    (sigtstp_handler ⟨7, 5⟩).1 = ⟨5, 7⟩ ∧
    ¬((sigtstp_handler ⟨7, 5⟩).1.running ≠ 5 ∧
      (sigtstp_handler ⟨7, 5⟩).1.suspended ≠ 5) := by
  decide

/-- C9 (amended): a stop with a job already suspended overwrites the
suspended slot with the stopped foreground id, but the previously suspended
id remains tracked: it is swapped into the foreground slot (and sent
SIGCONT by `makefg`). -/
theorem sigtstp_second_stop (r q : Nat) (hr : r ≠ 0) :
    (sigtstp_handler ⟨r, q⟩).1 = ⟨q, r⟩ ∧
    (q ≠ 0 → Effect.sendSignal q SIGCONT ∈ (sigtstp_handler ⟨r, q⟩).2) := by
  constructor
  · rw [sigtstp_state]
    simp [hr]
  · intro hq
    simp [sigtstp_handler, makefg, hr, hq]

theorem sigtstp_second_stop_witness :
    (sigtstp_handler ⟨7, 5⟩).1 = (⟨5, 7⟩ : ShellState) ∧
    Effect.sendSignal 5 SIGCONT ∈ (sigtstp_handler ⟨7, 5⟩).2 :=
  ⟨(sigtstp_second_stop 7 5 (by decide)).1,
    (sigtstp_second_stop 7 5 (by decide)).2 (by decide)⟩

/-- C10: for every empty or blank (spaces-only) input line, `parseline`
returns background = true (`return 1`, shell.c line 192) while producing
zero tokens. -/
theorem parseline_blank_returns_bg (n : Nat) :
    parseline (List.replicate n ' ' ++ ['\n']) = ([], true) :=
  parseline_blank n

/-! ## Signal-mask discipline of `eval` (claim C2) -/

theorem foldl_maskStep_true (l : List EvEvent)
    (h : EvEvent.restoreMask ∉ l) : l.foldl maskStep true = true := by
  induction l with
  | nil => rfl
  | cons e rest ih =>
      rw [List.mem_cons] at h
      push_neg at h
      have he : maskStep true e = true := by
        cases e <;> first | rfl | exact absurd rfl h.1
      rw [List.foldl_cons, he]
      exact ih h.2

theorem restore_not_mem_front_tail (bg : Bool) (n : Nat) :
    EvEvent.restoreMask ∉ (EvEvent.forkEv :: EvEvent.recordPid ::
      ((if bg then [EvEvent.printBg, EvEvent.clearPid] else []) ++
        List.replicate n EvEvent.suspendEv)) := by
  cases bg <;> simp [List.mem_replicate]

/-- At every position from just after the mask block to the end of the
pre-restore part of the trace, the three relayed signals are blocked. -/
theorem blockedBefore_front (bg : Bool) (n i : Nat) (h1 : 1 ≤ i)
    (h2 : i ≤ (evalTraceFront bg n).length) :
    blockedBefore (evalTrace bg n) i = true := by
  obtain ⟨j, rfl⟩ : ∃ j, i = j + 1 := ⟨i - 1, by omega⟩
  rw [blockedBefore, evalTrace, List.take_append_of_le_length h2]
  have hfront : evalTraceFront bg n =
      EvEvent.blockMask :: (EvEvent.forkEv :: EvEvent.recordPid ::
        ((if bg then [EvEvent.printBg, EvEvent.clearPid] else []) ++
          List.replicate n EvEvent.suspendEv)) := rfl
  rw [hfront, List.take_succ_cons, List.foldl_cons]
  apply foldl_maskStep_true
  exact fun hmem =>
    restore_not_mem_front_tail bg n (List.take_subset j _ hmem)

/-- C2: in the launcher's parent-side trace, the mask block precedes the
fork, which precedes the recording of the child pid in `g_runningPid`; the
three relayed signals are blocked at the fork and at the record step; every
point after the fork at which a relayed handler could run lies strictly
after the record step; and before the final mask restore the only such
points are `waitfg`'s `sigsuspend` calls, which unblock atomically. -/
theorem eval_mask_discipline (bg : Bool) (n : Nat) :
    (evalTrace bg n)[0]? = some EvEvent.blockMask ∧
    (evalTrace bg n)[1]? = some EvEvent.forkEv ∧
    (evalTrace bg n)[2]? = some EvEvent.recordPid ∧
    blockedBefore (evalTrace bg n) 1 = true ∧
    blockedBefore (evalTrace bg n) 2 = true ∧
    (∀ i, 1 < i → deliverable (evalTrace bg n) i → 2 < i) ∧
    (∀ i, 1 < i → i ≤ (evalTraceFront bg n).length →
      deliverable (evalTrace bg n) i →
      (evalTrace bg n)[i]? = some EvEvent.suspendEv) := by
  have hrec : (evalTrace bg n)[2]? = some EvEvent.recordPid := by
    simp [evalTrace, evalTraceFront]
  refine ⟨rfl, rfl, hrec, rfl, rfl, ?_, ?_⟩
  · intro i h1 hd
    by_contra hle
    have hi2 : i = 2 := by omega
    subst hi2
    rcases hd with hev | hbl
    · rw [hrec] at hev
      exact absurd hev (by simp)
    · have htrue : blockedBefore (evalTrace bg n) 2 = true := rfl
      rw [htrue] at hbl
      exact absurd hbl (by simp)
  · intro i h1 h2 hd
    rcases hd with hev | hbl
    · exact hev
    · rw [blockedBefore_front bg n i (by omega) h2] at hbl
      exact absurd hbl (by simp)

theorem eval_mask_discipline_witness :
    2 < 3 ∧ (evalTrace false 1)[3]? = some EvEvent.suspendEv :=
  ⟨(eval_mask_discipline false 1).2.2.2.2.2.1 3 (by decide)
      (Or.inl (by decide)),
    (eval_mask_discipline false 1).2.2.2.2.2.2 3 (by decide) (by decide)
      (Or.inl (by decide))⟩

/-! ## Tokenization correctness (claim C6) -/

/-- Scanning an unquoted token: `strchr (buf, ' ')` finds the space right
after `t`, the token `acc ++ t` is stored, and scanning resumes after it. -/
theorem tokAux_plain_run (t : List Char) : ∀ acc cs : List Char, ' ' ∉ t →
    tokAux TokMode.plain acc (t ++ ' ' :: cs) =
      (acc ++ t) :: tokAux TokMode.start [] cs := by
  induction t with
  | nil => intro acc cs _; simp [tokAux]
  | cons c t' ih =>
      intro acc cs hs
      rw [List.mem_cons] at hs
      push_neg at hs
      have hc : ¬(c = ' ') := fun h => hs.1 h.symm
      simp only [List.cons_append, tokAux, if_neg hc, List.append_eq]
      rw [ih (acc ++ [c]) cs hs.2]
      simp

/-- Scanning a quoted token: `strchr (buf, '\'')` finds the closing quote
right after `t`, the token `acc ++ t` is stored with the quotes stripped, and
scanning resumes after the closing quote. -/
theorem tokAux_quote_run (t : List Char) : ∀ acc cs : List Char, '\'' ∉ t →
    tokAux TokMode.quote acc (t ++ '\'' :: cs) =
      (acc ++ t) :: tokAux TokMode.start [] cs := by
  induction t with
  | nil => intro acc cs _; simp [tokAux]
  | cons c t' ih =>
      intro acc cs hq
      rw [List.mem_cons] at hq
      push_neg at hq
      have hc : ¬(c = '\'') := fun h => hq.1 h.symm
      have hcs : tokAux TokMode.quote acc ((c :: t') ++ '\'' :: cs) =
          tokAux TokMode.quote (acc ++ [c]) (t' ++ '\'' :: cs) := by
        by_cases hsp : c = ' ' <;> simp [tokAux, hc]
      rw [hcs, ih (acc ++ [c]) cs hq.2]
      simp

/-- At a token boundary, a nonempty unquoted token followed by a space is
scanned off whole. -/
theorem tokAux_start_tok (t cs : List Char) (hne : t ≠ [])
    (hs : ' ' ∉ t) (hq : '\'' ∉ t) :
    tokAux TokMode.start [] (t ++ ' ' :: cs) =
      t :: tokAux TokMode.start [] cs := by
  obtain ⟨c, t', rfl⟩ := List.exists_cons_of_ne_nil hne
  rw [List.mem_cons] at hs hq
  push_neg at hs
  push_neg at hq
  have hc : ¬(c = ' ') := fun h => hs.1 h.symm
  have hcq : ¬(c = '\'') := fun h => hq.1 h.symm
  simp only [List.cons_append, tokAux, if_neg hc, if_neg hcq, List.append_eq]
  rw [tokAux_plain_run t' [c] cs hs.2]
  simp

/-- The line the tokenizer sees for space-separated tokens, after the
trailing newline has become a space: each token followed by one space. -/
def joinSp (ts : List (List Char)) : List Char :=
  (ts.map (fun t => t ++ [' '])).flatten

theorem tokenize_joinSp (ts : List (List Char))
    (h : ∀ t ∈ ts, t ≠ [] ∧ ' ' ∉ t ∧ '\'' ∉ t) :
    tokenize (joinSp ts) = ts := by
  induction ts with
  | nil => rfl
  | cons t rest ih =>
      obtain ⟨h1, h2, h3⟩ := h t (List.mem_cons_self t rest)
      have hjoin : joinSp (t :: rest) = t ++ ' ' :: joinSp rest := by
        simp [joinSp]
      rw [tokenize, hjoin, tokAux_start_tok t _ h1 h2 h3]
      exact congrArg (t :: ·) (ih fun u hu => h u (List.mem_cons_of_mem t hu))

/-- A command line of tokens separated by single spaces
(no leading or trailing spaces before the newline). -/
def sepSpaces : List (List Char) → List Char
  | [] => []
  | [t] => t
  | t :: ts => t ++ ' ' :: sepSpaces ts

theorem sepSpaces_space : ∀ ts : List (List Char), ts ≠ [] →
    sepSpaces ts ++ [' '] = joinSp ts := by
  intro ts
  induction ts with
  | nil => intro h; exact absurd rfl h
  | cons t rest ih =>
      intro _
      cases rest with
      | nil => simp [sepSpaces, joinSp]
      | cons u rest' =>
          have hj : joinSp (t :: u :: rest') =
              (t ++ [' ']) ++ joinSp (u :: rest') := by
            simp [joinSp]
          rw [show sepSpaces (t :: u :: rest') =
              t ++ ' ' :: sepSpaces (u :: rest') from rfl,
            hj, ← ih (by simp)]
          simp

/-- C6: (a) a line of tokens separated by single spaces, with no quote
characters in any token (and the last token not starting with `&`, which the
background rule of line 195 would strip), parses to exactly that token
sequence; (b) a single-quoted token with arbitrary interior (spaces
included, quotes excluded) is produced as one token with the quotes stripped
and its interior intact. -/
theorem parseline_split_and_quoted :
    (∀ (ts : List (List Char)) (hne : ts ≠ []),
      (∀ t ∈ ts, t ≠ [] ∧ ' ' ∉ t ∧ '\'' ∉ t) →
      (ts.getLast hne).head? ≠ some '&' →
      parseline (sepSpaces ts ++ ['\n']) = (ts, false)) ∧
    (∀ u t : List Char, u ≠ [] → ' ' ∉ u → '\'' ∉ u → '\'' ∉ t →
      t.head? ≠ some '&' →
      parseline (u ++ ' ' :: '\'' :: (t ++ ['\'', '\n'])) = ([u, t], false)) := by
  constructor
  · intro ts hne hcond hlast
    have hinit : initSpace (sepSpaces ts ++ ['\n']) = joinSp ts := by
      rw [initSpace, List.dropLast_concat, sepSpaces_space ts hne]
    have htok : tokenize (initSpace (sepSpaces ts ++ ['\n'])) = ts := by
      rw [hinit, tokenize_joinSp ts hcond]
    have hlast2 : ts.getLast? = some (ts.getLast hne) :=
      List.getLast?_eq_getLast ts hne
    simp [parseline, htok, hlast2, hlast]
  · intro u t hu hus huq htq hth
    have hdrop : initSpace (u ++ ' ' :: '\'' :: (t ++ ['\'', '\n'])) =
        u ++ ' ' :: '\'' :: (t ++ '\'' :: [' ']) := by
      rw [initSpace]
      rw [show u ++ ' ' :: '\'' :: (t ++ ['\'', '\n']) =
          (u ++ ' ' :: '\'' :: (t ++ ['\''])) ++ ['\n'] by simp]
      rw [List.dropLast_concat]
      simp
    have htok : tokenize (initSpace (u ++ ' ' :: '\'' :: (t ++ ['\'', '\n']))) =
        [u, t] := by
      rw [hdrop, tokenize, tokAux_start_tok u _ hu hus huq]
      have hq : tokAux TokMode.start [] ('\'' :: (t ++ '\'' :: [' '])) =
          tokAux TokMode.quote [] (t ++ '\'' :: [' ']) := by
        simp [tokAux]
      rw [hq, tokAux_quote_run t [] [' '] htq]
      simp [tokAux]
    have hlast2 : ([u, t] : List (List Char)).getLast? = some t := rfl
    simp [parseline, htok, hlast2, hth]

theorem parseline_split_and_quoted_witness :
    parseline (sepSpaces [['l', 's'], ['-', 'a']] ++ ['\n']) =
      ([['l', 's'], ['-', 'a']], false) ∧
    parseline (['e', 'c', 'h', 'o'] ++ ' ' :: '\'' ::
        (['a', ' ', ' ', 'b'] ++ ['\'', '\n'])) =
      ([['e', 'c', 'h', 'o'], ['a', ' ', ' ', 'b']], false) :=
  ⟨parseline_split_and_quoted.1 [['l', 's'], ['-', 'a']] (by decide)
      (by decide) (by decide),
    parseline_split_and_quoted.2 ['e', 'c', 'h', 'o'] ['a', ' ', ' ', 'b']
      (by decide) (by decide) (by decide) (by decide) (by decide)⟩
